import Mathlib

/-!
Formal model of the buffett portfolio-advisor core: the suggestion
lifecycle, the scorecard aggregation, the holdings upsert and the
daily-change computation, shallowly embedded from the Python sources
(models.py, suggestions.py, db.py, pipeline.py, analyzer.py).

Python floats are modelled as rationals; ISO timestamps are modelled as
integer instants (seconds), with a day equal to 86400 instants.
-/

/-- Rounding to two decimal places, modelling Python round(x, 2) on the
rationals. -/
def round2 (x : ℚ) : ℚ := (round (x * 100) : ℚ) / 100

/-- Model of models.PriceData: one quote for one ticker. -/
structure PriceData where
  ticker : String
  current_price : ℚ
  previous_close : ℚ
  day_change_pct : ℚ
deriving DecidableEq

/-- Model of models.Suggestion: a trade idea with a lifecycle.  The
created_at / resolved_at ISO strings are modelled as integer instants. -/
structure Suggestion where
  id : Option Nat := none
  ticker : String := ""
  action : String := ""
  confidence : String := ""
  target_price : ℚ := 0
  reasoning : String := ""
  created_at : ℤ := 0
  status : String := "OPEN"
  entry_price : ℚ := 0
  resolved_price : Option ℚ := none
  resolved_at : Option ℤ := none
  timeframe_days : ℤ := 7
deriving DecidableEq

/-- Model of models.Holding: a position in one ticker. -/
structure Holding where
  ticker : String
  shares : ℚ
  cost_basis : ℚ
  added_at : ℤ := 0
deriving DecidableEq

/-- Model of datetime.timedelta(days=n), in integer instants. -/
def timedeltaDays (n : ℤ) : ℤ := n * 86400

/-- Model of db.resolve_suggestion: a single UPDATE that sets status,
resolved_price and resolved_at together on the row; the resolved_at
timestamp is taken at resolution time (the now argument). -/
def resolve_suggestion (s : Suggestion) (status : String) (resolved_price : ℚ)
    (now : ℤ) : Suggestion :=
  { s with status := status, resolved_price := some resolved_price,
           resolved_at := some now }

/-- Model of db.expire_suggestion: delegates to resolve_suggestion with
status EXPIRED. -/
def expire_suggestion (s : Suggestion) (current_price : ℚ) (now : ℤ) : Suggestion :=
  resolve_suggestion s "EXPIRED" current_price now

/-- Model of the hit flag computed in suggestions.resolve_open_suggestions:
hit is set for a BUY when current >= target and for a SELL when
current <= target. -/
def hitCheck (s : Suggestion) (current : ℚ) : Bool :=
  if s.action = "BUY" ∧ current ≥ s.target_price then true
  else if s.action = "SELL" ∧ current ≤ s.target_price then true
  else false

/-- Model of one loop iteration of suggestions.resolve_open_suggestions on
one open suggestion: no quote means no change; otherwise the hit branch is
checked first, then the deadline branch, else the row is untouched. -/
def step_suggestion (prices : String → Option PriceData) (now : ℤ)
    (s : Suggestion) : Suggestion :=
  match prices s.ticker with
  | none => s
  | some price_data =>
    let current := price_data.current_price
    let deadline := s.created_at + timedeltaDays s.timeframe_days
    if hitCheck s current then
      resolve_suggestion s "HIT" current now
    else if now ≥ deadline then
      expire_suggestion s current now
    else
      s

/-- Model of suggestions.resolve_open_suggestions over the list of open
suggestions: each row is evaluated independently. -/
def resolve_open_suggestions (prices : String → Option PriceData) (now : ℤ)
    (open_sug : List Suggestion) : List Suggestion :=
  open_sug.map (step_suggestion prices now)

/-- Model of suggestions.compute_pnl: None without a resolved price;
BUY uses resolved - entry, anything else takes the SELL branch
entry - resolved. -/
def compute_pnl (s : Suggestion) : Option ℚ :=
  match s.resolved_price with
  | none => none
  | some rp =>
    if s.action = "BUY" then some (rp - s.entry_price)
    else some (s.entry_price - rp)

/-- Model of the dict built by suggestions._format_call. -/
structure FormattedCall where
  ticker : String
  action : String
  pnl : ℚ
  status : String
deriving DecidableEq

/-- Model of one by_confidence sub-record of suggestions.scorecard. -/
structure ConfidenceStats where
  count : ℕ
  hit_rate : ℚ
  avg_pnl : ℚ
deriving DecidableEq

/-- Model of the dict returned by suggestions.scorecard (the open key is
named open_count because open is reserved). -/
structure Scorecard where
  total : ℕ
  open_count : ℕ
  resolved : ℕ
  hit_rate : ℚ
  avg_pnl : ℚ
  best : Option FormattedCall
  worst : Option FormattedCall
  by_confidence : List (String × ConfidenceStats)
deriving DecidableEq

/-- Model of suggestions._format_call on a (suggestion, pnl) pair. -/
def _format_call (entry : Suggestion × ℚ) : FormattedCall :=
  { ticker := entry.1.ticker, action := entry.1.action,
    pnl := round2 entry.2, status := entry.1.status }

/-- The resolved sublist of suggestions.scorecard: status HIT or EXPIRED. -/
def resolved_of (suggestions : List Suggestion) : List Suggestion :=
  suggestions.filter (fun s => decide (s.status = "HIT" ∨ s.status = "EXPIRED"))

/-- The open sublist counted by suggestions.scorecard. -/
def open_of (suggestions : List Suggestion) : List Suggestion :=
  suggestions.filter (fun s => decide (s.status = "OPEN"))

/-- The pnls list of suggestions.scorecard before sorting: each resolved
suggestion with a defined P/L paired with that P/L, in input order. -/
def pnl_pairs (resolved : List Suggestion) : List (Suggestion × ℚ) :=
  resolved.filterMap (fun s => (compute_pnl s).map (fun p => (s, p)))

/-- Model of pnls.sort(key=lambda x: x[1], reverse=True): a stable sort
into descending P/L order (Python list.sort is stable, also with
reverse=True). -/
def sortPnlsDesc (pnls : List (Suggestion × ℚ)) : List (Suggestion × ℚ) :=
  pnls.mergeSort (fun a b => decide (b.2 ≤ a.2))

/-- Model of the by_confidence breakdown of suggestions.scorecard: tiers
are visited in the order HIGH, MEDIUM, LOW and a tier with no resolved
suggestion is omitted. -/
def by_confidence_of (resolved : List Suggestion) : List (String × ConfidenceStats) :=
  ["HIGH", "MEDIUM", "LOW"].filterMap (fun conf =>
    let conf_resolved := resolved.filter (fun s => decide (s.confidence = conf))
    let conf_hits := conf_resolved.filter (fun s => decide (s.status = "HIT"))
    let conf_pnls := conf_resolved.filterMap compute_pnl
    if conf_resolved.isEmpty then none
    else some (conf,
      { count := conf_resolved.length,
        hit_rate := (conf_hits.length : ℚ) / (conf_resolved.length : ℚ) * 100,
        avg_pnl := if conf_pnls.isEmpty then 0
                   else conf_pnls.sum / (conf_pnls.length : ℚ) }))

/-- Model of suggestions.scorecard. -/
def scorecard (suggestions : List Suggestion) : Scorecard :=
  let resolved := resolved_of suggestions
  if resolved.isEmpty then
    { total := suggestions.length
      open_count := (open_of suggestions).length
      resolved := 0
      hit_rate := 0
      avg_pnl := 0
      best := none
      worst := none
      by_confidence := [] }
  else
    let pnls := sortPnlsDesc (pnl_pairs resolved)
    let hits := resolved.filter (fun s => decide (s.status = "HIT"))
    { total := suggestions.length
      open_count := (open_of suggestions).length
      resolved := resolved.length
      hit_rate := if resolved.isEmpty then 0
                  else (hits.length : ℚ) / (resolved.length : ℚ) * 100
      avg_pnl := round2 (if pnls.isEmpty then 0
                         else (pnls.map Prod.snd).sum / (pnls.length : ℚ))
      best := pnls.head?.map _format_call
      worst := pnls.getLast?.map _format_call
      by_confidence := by_confidence_of resolved }

/-- Model of step 4 of pipeline.run_daily: the daily change is computed
only when a previous value exists, is truthy (nonzero) and is positive;
Python truthiness of the float is modelled explicitly. -/
def daily_change_pct (portfolio_value : ℚ) (prev_value : Option ℚ) : Option ℚ :=
  match prev_value with
  | none => none
  | some pv =>
    if pv ≠ 0 ∧ pv > 0 then
      some (round2 ((portfolio_value - pv) / pv * 100))
    else none

/-- Model of db.add_holding over a holdings map keyed by ticker: an insert
for a new ticker, and on conflict the weighted-average merge of cost basis
with accumulated share count (added_at is set only by the insert). -/
def add_holding (db : String → Option Holding) (ticker : String)
    (shares cost_basis : ℚ) (now : ℤ) : String → Option Holding :=
  let key := ticker.toUpper
  fun t =>
    if t = key then
      match db key with
      | none =>
        some { ticker := key, shares := shares, cost_basis := cost_basis,
               added_at := now }
      | some h =>
        some { ticker := key
               shares := h.shares + shares
               cost_basis := (h.cost_basis * h.shares + cost_basis * shares)
                             / (h.shares + shares)
               added_at := h.added_at }
    else db t

/-- Model of one decoded record of the fenced JSON block consumed by
analyzer._parse_suggestions: every field may be missing (dict.get). -/
structure SuggestionItem where
  ticker : Option String := none
  action : Option String := none
  confidence : Option String := none
  target_price : Option ℚ := none
  reasoning : Option String := none
  timeframe_days : Option ℤ := none
deriving DecidableEq

/-- Model of the Suggestion constructed for one record inside
analyzer._parse_suggestions: defaults mirror the dict.get calls, the
entry price comes from the quote map and defaults to 0 when the ticker
has no quote, status starts OPEN with no resolution fields. -/
def item_to_suggestion (prices : String → Option PriceData) (now : ℤ)
    (item : SuggestionItem) : Suggestion :=
  let tic := (item.ticker.getD "").toUpper
  let entry := match prices tic with
    | some price_data => price_data.current_price
    | none => 0
  { id := none
    ticker := tic
    action := (item.action.getD "BUY").toUpper
    confidence := (item.confidence.getD "MEDIUM").toUpper
    target_price := item.target_price.getD 0
    reasoning := item.reasoning.getD ""
    created_at := now
    status := "OPEN"
    entry_price := entry
    resolved_price := none
    resolved_at := none
    timeframe_days := item.timeframe_days.getD 7 }

/-- Model of analyzer._parse_suggestions.  The re.search for the fenced
json block is modelled by the jsonBlock argument (none when no block is
present in the response) and the json.loads stdlib call by the
decodeItems argument (none on a decode error); both early returns yield
the empty suggestion list, otherwise each decoded record is converted. -/
def parse_suggestions (decodeItems : String → Option (List SuggestionItem))
    (jsonBlock : Option String) (prices : String → Option PriceData)
    (now : ℤ) : List Suggestion :=
  match jsonBlock with
  | none => []
  | some content =>
    match decodeItems content with
    | none => []
    | some items => items.map (item_to_suggestion prices now)

/-- The resolution invariant of the Suggestion data model: the resolution
fields are both set exactly when the status is terminal. -/
def Suggestion.resolutionInvariant (s : Suggestion) : Prop :=
  (s.resolved_price.isSome = true ∧ s.resolved_at.isSome = true) ↔
    (s.status = "HIT" ∨ s.status = "EXPIRED")

instance (s : Suggestion) : Decidable s.resolutionInvariant := by
  unfold Suggestion.resolutionInvariant
  infer_instance

/-- Sample quote used by concrete witnesses. -/
def samplePrice : PriceData :=
  { ticker := "AAPL", current_price := 101, previous_close := 99, day_change_pct := 2 }

/-- Sample quote map used by concrete witnesses. -/
def samplePrices : String → Option PriceData :=
  fun t => if t = "AAPL" then some samplePrice else none

/-- Sample open BUY suggestion used by concrete witnesses. -/
def sampleBuy : Suggestion :=
  { ticker := "AAPL", action := "BUY", confidence := "HIGH", target_price := 100,
    created_at := 0, status := "OPEN", entry_price := 95, timeframe_days := 7 }

/-- Sample open SELL suggestion used by concrete witnesses. -/
def sampleSell : Suggestion :=
  { ticker := "AAPL", action := "SELL", confidence := "MEDIUM", target_price := 50,
    created_at := 0, status := "OPEN", entry_price := 55, timeframe_days := 7 }

theorem hitCheck_eq_true_iff (s : Suggestion) (current : ℚ) :
    hitCheck s current = true ↔
      ((s.action = "BUY" ∧ current ≥ s.target_price) ∨
       (s.action = "SELL" ∧ current ≤ s.target_price)) := by
  unfold hitCheck
  split_ifs with h1 h2
  · simp [h1]
  · simp [h2]
  · simp [h1, h2]

theorem step_suggestion_eq_of_quote (prices : String → Option PriceData)
    (now : ℤ) (s : Suggestion) (price_data : PriceData)
    (hq : prices s.ticker = some price_data) :
    step_suggestion prices now s =
      (if hitCheck s price_data.current_price then
        resolve_suggestion s "HIT" price_data.current_price now
      else if now ≥ s.created_at + timedeltaDays s.timeframe_days then
        expire_suggestion s price_data.current_price now
      else s) := by
  unfold step_suggestion
  rw [hq]

/-- C1: for an OPEN suggestion whose ticker has a quote, the lifecycle step
marks it HIT exactly when (action BUY and current >= target) or (action
SELL and current <= target); the hit check precedes the deadline check, so
a suggestion that both hits and is past deadline resolves HIT, never
EXPIRED. -/
theorem C1_hit_rule_and_priority (prices : String → Option PriceData) (now : ℤ)
    (s : Suggestion) (price_data : PriceData)
    (hq : prices s.ticker = some price_data) (hopen : s.status = "OPEN") :
    ((step_suggestion prices now s).status = "HIT" ↔
      ((s.action = "BUY" ∧ price_data.current_price ≥ s.target_price) ∨
       (s.action = "SELL" ∧ price_data.current_price ≤ s.target_price))) ∧
    (((s.action = "BUY" ∧ price_data.current_price ≥ s.target_price) ∨
      (s.action = "SELL" ∧ price_data.current_price ≤ s.target_price)) →
      now ≥ s.created_at + timedeltaDays s.timeframe_days →
      (step_suggestion prices now s).status = "HIT" ∧
      (step_suggestion prices now s).status ≠ "EXPIRED") := by
  rw [step_suggestion_eq_of_quote prices now s price_data hq]
  by_cases hhit : hitCheck s price_data.current_price = true
  · rw [if_pos hhit]
    have hd := (hitCheck_eq_true_iff s price_data.current_price).mp hhit
    refine ⟨?_, ?_⟩
    · simp [resolve_suggestion, hd]
    · intro _ _
      simp [resolve_suggestion]
  · rw [if_neg hhit]
    have hd : ¬((s.action = "BUY" ∧ price_data.current_price ≥ s.target_price) ∨
        (s.action = "SELL" ∧ price_data.current_price ≤ s.target_price)) := by
      intro h
      exact hhit ((hitCheck_eq_true_iff s price_data.current_price).mpr h)
    refine ⟨?_, fun h _ => absurd h hd⟩
    constructor
    · intro hst
      exfalso
      by_cases hdl : now ≥ s.created_at + timedeltaDays s.timeframe_days
      · rw [if_pos hdl] at hst
        simp [expire_suggestion, resolve_suggestion] at hst
      · rw [if_neg hdl] at hst
        rw [hopen] at hst
        simp at hst
    · intro h
      exact absurd h hd

/-- Witness for C1: the BUY suggestion with target 100 sees quote 101 at an
instant past its deadline and still resolves HIT, not EXPIRED. -/
theorem C1_witness :
    (step_suggestion samplePrices 604800 sampleBuy).status = "HIT" ∧
    (step_suggestion samplePrices 604800 sampleBuy).status ≠ "EXPIRED" :=
  (C1_hit_rule_and_priority samplePrices 604800 sampleBuy samplePrice
      (by decide) (by decide)).2 (Or.inl ⟨by decide, by decide⟩) (by decide)

/-- C2: for an OPEN suggestion whose ticker has a quote, a firing hit rule
resolves the row to HIT and a non-firing hit rule with the deadline
reached resolves it to EXPIRED; each resolution records resolved_price
equal to the current quote price and resolved_at equal to the resolution
instant; when neither rule fires the row is unchanged. -/
theorem C2_expiry_and_resolution_fields (prices : String → Option PriceData)
    (now : ℤ) (s : Suggestion) (price_data : PriceData)
    (hq : prices s.ticker = some price_data) (hopen : s.status = "OPEN") :
    (((s.action = "BUY" ∧ price_data.current_price ≥ s.target_price) ∨
      (s.action = "SELL" ∧ price_data.current_price ≤ s.target_price)) →
      step_suggestion prices now s =
        { s with status := "HIT",
                 resolved_price := some price_data.current_price,
                 resolved_at := some now }) ∧
    (¬((s.action = "BUY" ∧ price_data.current_price ≥ s.target_price) ∨
       (s.action = "SELL" ∧ price_data.current_price ≤ s.target_price)) →
      now ≥ s.created_at + timedeltaDays s.timeframe_days →
      step_suggestion prices now s =
        { s with status := "EXPIRED",
                 resolved_price := some price_data.current_price,
                 resolved_at := some now }) ∧
    (¬((s.action = "BUY" ∧ price_data.current_price ≥ s.target_price) ∨
       (s.action = "SELL" ∧ price_data.current_price ≤ s.target_price)) →
      now < s.created_at + timedeltaDays s.timeframe_days →
      step_suggestion prices now s = s) := by
  rw [step_suggestion_eq_of_quote prices now s price_data hq]
  refine ⟨?_, ?_, ?_⟩
  · intro hd
    rw [if_pos ((hitCheck_eq_true_iff s price_data.current_price).mpr hd)]
    rfl
  · intro hd hdl
    have hhit : ¬ hitCheck s price_data.current_price = true := by
      intro h
      exact hd ((hitCheck_eq_true_iff s price_data.current_price).mp h)
    rw [if_neg hhit, if_pos hdl]
    rfl
  · intro hd hdl
    have hhit : ¬ hitCheck s price_data.current_price = true := by
      intro h
      exact hd ((hitCheck_eq_true_iff s price_data.current_price).mp h)
    rw [if_neg hhit, if_neg (not_le.mpr hdl)]

/-- Witness for C2: the SELL suggestion with target 50 sees quote 101 ten
days after creation with a 7-day timeframe and resolves EXPIRED with
resolved_price 101 and resolved_at the resolution instant. -/
theorem C2_witness :
    step_suggestion samplePrices 864000 sampleSell =
      { sampleSell with status := "EXPIRED",
                        resolved_price := some samplePrice.current_price,
                        resolved_at := some 864000 } :=
  (C2_expiry_and_resolution_fields samplePrices 864000 sampleSell samplePrice
      (by decide) (by decide)).2.1 (by decide) (by decide)

/-- C3: a lifecycle step on an OPEN suggestion whose ticker is absent from
the quote map leaves the record unchanged in every field, even past its
deadline, so it stays OPEN and eligible for a later run. -/
theorem C3_no_quote_untouched (prices : String → Option PriceData) (now : ℤ)
    (s : Suggestion) (hq : prices s.ticker = none) (hopen : s.status = "OPEN") :
    step_suggestion prices now s = s ∧
    (step_suggestion prices now s).status = "OPEN" := by
  have h : step_suggestion prices now s = s := by
    unfold step_suggestion
    rw [hq]
  exact ⟨h, by rw [h]; exact hopen⟩

/-- Witness for C3: with an empty quote map the SELL suggestion stays
untouched ten days after creation, beyond its 7-day deadline. -/
theorem C3_witness :
    step_suggestion (fun _ => none) 864000 sampleSell = sampleSell ∧
    (step_suggestion (fun _ => none) 864000 sampleSell).status = "OPEN" :=
  C3_no_quote_untouched (fun _ => none) 864000 sampleSell rfl (by decide)

/-- C6: the daily change is None exactly when there is no previously
stored portfolio value or that value is nonpositive; otherwise it is
(current - prior) / prior * 100 rounded to two decimals. -/
theorem C6_daily_change (cur : ℚ) (prev : Option ℚ) :
    (daily_change_pct cur prev = none ↔
      (prev = none ∨ ∃ pv : ℚ, prev = some pv ∧ pv ≤ 0)) ∧
    (∀ pv : ℚ, prev = some pv → 0 < pv →
      daily_change_pct cur prev = some (round2 ((cur - pv) / pv * 100))) := by
  cases prev with
  | none => simp [daily_change_pct]
  | some pv =>
    constructor
    · simp only [daily_change_pct]
      split_ifs with h
      · simp only [reduceCtorEq, false_iff]
        rintro (h' | ⟨pv', hpv', hle⟩)
        · exact h'
        · rw [Option.some_inj] at hpv'
          subst hpv'
          exact absurd h.2 (not_lt.mpr hle)
      · simp only [true_iff]
        refine Or.inr ⟨pv, rfl, ?_⟩
        by_contra hle
        push_neg at hle
        exact h ⟨ne_of_gt hle, hle⟩
    · intro pv' hpv' hpos
      rw [Option.some_inj] at hpv'
      subst hpv'
      simp only [daily_change_pct]
      rw [if_pos ⟨ne_of_gt hpos, hpos⟩]

/-- Witness for C6: previous value 200 and current value 210 give a daily
change of 5 percent. -/
theorem C6_witness :
    daily_change_pct 210 (some 200) = some (round2 ((210 - 200) / 200 * 100)) :=
  (C6_daily_change 210 (some 200)).2 200 rfl (by norm_num)

/-- Sample resolved suggestion whose action string is empty, used by the
C10 witness. -/
def sampleResolvedOther : Suggestion :=
  { ticker := "TSLA", action := "", confidence := "LOW", target_price := 10,
    created_at := 0, status := "EXPIRED", entry_price := 50,
    resolved_price := some 40, resolved_at := some 5, timeframe_days := 7 }

/-- C10: compute_pnl is None exactly when resolved_price is None,
regardless of status or action; with a resolved price, an action other
than exactly BUY (including the empty string) takes the SELL branch
entry - resolved, and BUY takes resolved - entry. -/
theorem C10_compute_pnl_total (s : Suggestion) :
    (compute_pnl s = none ↔ s.resolved_price = none) ∧
    (∀ rp : ℚ, s.resolved_price = some rp →
      (s.action = "BUY" → compute_pnl s = some (rp - s.entry_price)) ∧
      (s.action ≠ "BUY" → compute_pnl s = some (s.entry_price - rp))) := by
  constructor
  · cases hrp : s.resolved_price with
    | none => simp [compute_pnl, hrp]
    | some rp =>
      simp only [compute_pnl, hrp]
      split_ifs <;> simp
  · intro rp hrp
    constructor
    · intro h
      simp [compute_pnl, hrp, h]
    · intro h
      simp [compute_pnl, hrp, h]

/-- Witness for C10: a resolved suggestion with the empty action string
gets the SELL formula entry - resolved. -/
theorem C10_witness :
    compute_pnl sampleResolvedOther =
      some (sampleResolvedOther.entry_price - 40) :=
  ((C10_compute_pnl_total sampleResolvedOther).2 40 (by decide)).2 (by decide)

/-- C4: creation from a parsed record yields status OPEN with both
resolution fields absent; db.resolve_suggestion sets status,
resolved_price and resolved_at together in a single update, giving the
invariant for any terminal status; and the lifecycle step preserves the
invariant that the resolution fields are set exactly when the status is
terminal, so no reachable row has exactly one side set. -/
theorem C4_resolution_invariant :
    (∀ (prices : String → Option PriceData) (now : ℤ) (item : SuggestionItem),
      (item_to_suggestion prices now item).status = "OPEN" ∧
      (item_to_suggestion prices now item).resolved_price = none ∧
      (item_to_suggestion prices now item).resolved_at = none ∧
      (item_to_suggestion prices now item).resolutionInvariant) ∧
    (∀ (s : Suggestion) (st : String) (rp : ℚ) (now : ℤ),
      st = "HIT" ∨ st = "EXPIRED" →
      (resolve_suggestion s st rp now).status = st ∧
      (resolve_suggestion s st rp now).resolved_price = some rp ∧
      (resolve_suggestion s st rp now).resolved_at = some now ∧
      (resolve_suggestion s st rp now).resolutionInvariant) ∧
    (∀ (prices : String → Option PriceData) (now : ℤ) (s : Suggestion),
      s.resolutionInvariant → (step_suggestion prices now s).resolutionInvariant) := by
  refine ⟨?_, ?_, ?_⟩
  · intro prices now item
    refine ⟨rfl, rfl, rfl, ?_⟩
    simp [Suggestion.resolutionInvariant, item_to_suggestion]
  · intro s st rp now hst
    refine ⟨rfl, rfl, rfl, ?_⟩
    simp only [Suggestion.resolutionInvariant, resolve_suggestion,
      Option.isSome_some, and_self, true_iff]
    exact hst
  · intro prices now s hinv
    cases hq : prices s.ticker with
    | none =>
      have h : step_suggestion prices now s = s := by
        unfold step_suggestion
        rw [hq]
      rw [h]
      exact hinv
    | some price_data =>
      rw [step_suggestion_eq_of_quote prices now s price_data hq]
      by_cases hhit : hitCheck s price_data.current_price = true
      · rw [if_pos hhit]
        simp [Suggestion.resolutionInvariant, resolve_suggestion]
      · rw [if_neg hhit]
        by_cases hdl : now ≥ s.created_at + timedeltaDays s.timeframe_days
        · rw [if_pos hdl]
          simp [Suggestion.resolutionInvariant, expire_suggestion, resolve_suggestion]
        · rw [if_neg hdl]
          exact hinv

/-- Witness for C4: a concrete resolution satisfies the invariant, and the
lifecycle step applied to a concrete open suggestion preserves it. -/
theorem C4_witness :
    (resolve_suggestion sampleBuy "HIT" 101 604800).resolutionInvariant ∧
    (step_suggestion samplePrices 604800 sampleBuy).resolutionInvariant :=
  ⟨(C4_resolution_invariant.2.1 sampleBuy "HIT" 101 604800 (Or.inl rfl)).2.2.2,
   C4_resolution_invariant.2.2 samplePrices 604800 sampleBuy (by decide)⟩

/-- C5: two additions on the same ticker, starting from a holdings map
with no row for it, store shares q1+q2 with the quantity-weighted cost
basis (b1*q1 + b2*q2)/(q1+q2), and the stored holding is the same in
either order of the two additions. -/
theorem C5_weighted_average_commutative (db : String → Option Holding)
    (t : String) (q1 b1 q2 b2 : ℚ) (n1 n2 n3 : ℤ)
    (hempty : db t.toUpper = none) (hq1 : q1 ≠ 0) (hq2 : q2 ≠ 0)
    (hsum : q1 + q2 ≠ 0) :
    add_holding (add_holding db t q1 b1 n1) t q2 b2 n2 t.toUpper =
      some { ticker := t.toUpper, shares := q1 + q2,
             cost_basis := (b1 * q1 + b2 * q2) / (q1 + q2), added_at := n1 } ∧
    add_holding (add_holding db t q1 b1 n1) t q2 b2 n2 t.toUpper =
      add_holding (add_holding db t q2 b2 n1) t q1 b1 n3 t.toUpper := by
  have h12 : add_holding (add_holding db t q1 b1 n1) t q2 b2 n2 t.toUpper =
      some { ticker := t.toUpper, shares := q1 + q2,
             cost_basis := (b1 * q1 + b2 * q2) / (q1 + q2), added_at := n1 } := by
    simp [add_holding, hempty]
  have h21 : add_holding (add_holding db t q2 b2 n1) t q1 b1 n3 t.toUpper =
      some { ticker := t.toUpper, shares := q2 + q1,
             cost_basis := (b2 * q2 + b1 * q1) / (q2 + q1), added_at := n1 } := by
    simp [add_holding, hempty]
  refine ⟨h12, ?_⟩
  rw [h12, h21]
  rw [add_comm (b2 * q2) (b1 * q1), add_comm q2 q1]

/-- Witness for C5: adding 1 share at basis 10 and then 2 shares at basis
4 to a fresh ticker stores 3 shares at basis 6, independently of order. -/
theorem C5_witness :
    add_holding (add_holding (fun _ => none) "aapl" 1 10 7) "aapl" 2 4 9 "aapl".toUpper =
      some { ticker := "aapl".toUpper, shares := 1 + 2,
             cost_basis := (10 * 1 + 4 * 2) / (1 + 2), added_at := 7 } ∧
    add_holding (add_holding (fun _ => none) "aapl" 1 10 7) "aapl" 2 4 9 "aapl".toUpper =
      add_holding (add_holding (fun _ => none) "aapl" 2 4 7) "aapl" 1 10 11 "aapl".toUpper :=
  C5_weighted_average_commutative (fun _ => none) "aapl" 1 10 2 4 7 9 11 rfl
    (by norm_num) (by norm_num) (by norm_num)

/-- C7: a suggestion list with zero resolved entries yields the zero-guard
scorecard: hit_rate 0, avg_pnl 0, best and worst None, by_confidence
empty, open the count of OPEN entries, total the input length; in
particular the empty list yields the all-zero record. -/
theorem C7_scorecard_no_resolved (suggestions : List Suggestion)
    (h : ∀ s ∈ suggestions, ¬(s.status = "HIT" ∨ s.status = "EXPIRED")) :
    scorecard suggestions =
      { total := suggestions.length
        open_count := (open_of suggestions).length
        resolved := 0
        hit_rate := 0
        avg_pnl := 0
        best := none
        worst := none
        by_confidence := [] } ∧
    scorecard [] =
      { total := 0, open_count := 0, resolved := 0, hit_rate := 0,
        avg_pnl := 0, best := none, worst := none, by_confidence := [] } := by
  constructor
  · have hres : resolved_of suggestions = [] := by
      rw [resolved_of, List.filter_eq_nil_iff]
      intro s hs
      simpa using h s hs
    simp [scorecard, hres]
  · rfl

/-- Witness for C7: a one-element list holding only an OPEN suggestion
yields the zero-guard scorecard with total 1 and open 1. -/
theorem C7_witness :
    scorecard [sampleBuy] =
      { total := [sampleBuy].length
        open_count := (open_of [sampleBuy]).length
        resolved := 0
        hit_rate := 0
        avg_pnl := 0
        best := none
        worst := none
        by_confidence := [] } ∧
    scorecard [] =
      { total := 0, open_count := 0, resolved := 0, hit_rate := 0,
        avg_pnl := 0, best := none, worst := none, by_confidence := [] } :=
  C7_scorecard_no_resolved [sampleBuy] (by decide)

/-- C9: without a fenced json block the parse yields zero suggestions; a
decode failure on the block content yields zero suggestions; a decoded
record whose ticker has no quote is still accepted, built with
entry_price 0 and status OPEN; a successful decode maps every record. -/
theorem C9_parse_tolerance (decodeItems : String → Option (List SuggestionItem))
    (prices : String → Option PriceData) (now : ℤ) :
    parse_suggestions decodeItems none prices now = [] ∧
    (∀ content : String, decodeItems content = none →
      parse_suggestions decodeItems (some content) prices now = []) ∧
    (∀ item : SuggestionItem,
      prices ((item.ticker.getD "").toUpper) = none →
      (item_to_suggestion prices now item).entry_price = 0 ∧
      (item_to_suggestion prices now item).status = "OPEN") ∧
    (∀ (content : String) (items : List SuggestionItem),
      decodeItems content = some items →
      parse_suggestions decodeItems (some content) prices now =
        items.map (item_to_suggestion prices now)) := by
  refine ⟨rfl, ?_, ?_, ?_⟩
  · intro content hc
    simp [parse_suggestions, hc]
  · intro item hq
    refine ⟨?_, rfl⟩
    simp [item_to_suggestion, hq]
  · intro content items hc
    simp [parse_suggestions, hc]

/-- Sample decoded record for an unheld ticker, used by the C9 witness. -/
def sampleItem : SuggestionItem :=
  { ticker := some "MSFT", action := some "SELL", confidence := none,
    target_price := some 300, reasoning := some "momentum",
    timeframe_days := some 5 }

/-- Witness for C9: a failed decode yields zero suggestions, and a record
for a ticker with no quote is accepted with entry_price 0. -/
theorem C9_witness :
    parse_suggestions (fun _ => none) (some "nonsense") (fun _ => none) 0 = [] ∧
    (item_to_suggestion (fun _ => none) 0 sampleItem).entry_price = 0 ∧
    (item_to_suggestion (fun _ => none) 0 sampleItem).status = "OPEN" :=
  ⟨(C9_parse_tolerance (fun _ => none) (fun _ => none) 0).2.1 "nonsense" rfl,
   ((C9_parse_tolerance (fun _ => none) (fun _ => none) 0).2.2.1 sampleItem rfl).1,
   ((C9_parse_tolerance (fun _ => none) (fun _ => none) 0).2.2.1 sampleItem rfl).2⟩


def descLe {α : Type} (k : α → ℚ) : α → α → Bool := fun x y => decide (k y ≤ k x)

theorem descLe_trans {α : Type} (k : α → ℚ) : ∀ (a b c : α),
    descLe k a b → descLe k b c → descLe k a c := by
  intro a b c h1 h2
  simp only [descLe, decide_eq_true_eq] at *
  exact le_trans h2 h1

theorem descLe_total {α : Type} (k : α → ℚ) : ∀ (a b : α),
    descLe k a b || descLe k b a := by
  intro a b
  simp only [descLe, Bool.or_eq_true, decide_eq_true_eq]
  exact le_total (k b) (k a)

theorem head_mergeSort_first_max {α : Type} (k : α → ℚ) :
    ∀ l : List α, l ≠ [] →
    ∃ b, (l.mergeSort (descLe k)).head? = some b ∧
      (∀ x ∈ l, k x ≤ k b) ∧
      l.find? (fun x => decide (k b ≤ k x)) = some b := by
  intro l
  induction l with
  | nil => intro h; exact absurd rfl h
  | cons a t ih =>
    intro _
    obtain ⟨l₁, l₂, h₁, h₂, h₃⟩ :=
      List.mergeSort_cons (descLe_trans k) (descLe_total k) a t
    cases l₁ with
    | nil =>
      simp only [List.nil_append] at h₁ h₂
      refine ⟨a, by rw [h₁]; rfl, ?_, ?_⟩
      · have hsorted := List.sorted_mergeSort (descLe_trans k) (descLe_total k) (a :: t)
        rw [h₁] at hsorted
        have hall := List.pairwise_cons.mp hsorted |>.1
        have hperm := List.mergeSort_perm (a :: t) (descLe k)
        rw [h₁] at hperm
        have hpt : l₂.Perm t := hperm.cons_inv
        intro x hx
        rcases List.mem_cons.mp hx with hxa | hxt
        · subst hxa; exact le_refl _
        · have hx2 : x ∈ l₂ := hpt.symm.subset hxt
          have := hall x hx2
          simpa [descLe, decide_eq_true_eq] using this
      · apply List.find?_cons_of_pos
        simp
    | cons c l₁' =>
      have ht : t ≠ [] := by
        intro he
        subst he
        simp at h₂
      obtain ⟨b, hb1, hb2, hb3⟩ := ih ht
      rw [h₂] at hb1
      simp only [List.cons_append, List.head?_cons, Option.some_inj] at hb1
      subst hb1
      have hcb : ¬ (k c ≤ k a) := by
        have := h₃ c (List.mem_cons_self c l₁')
        simp only [descLe, Bool.not_eq_true', decide_eq_false_iff_not] at this
        exact this
      have hab : k a < k c := lt_of_not_le hcb
      refine ⟨c, ?_, ?_, ?_⟩
      · rw [h₁]
        rfl
      · intro x hx
        rcases List.mem_cons.mp hx with hxa | hxt
        · subst hxa; exact le_of_lt hab
        · exact hb2 x hxt
      · rw [List.find?_cons_of_neg]
        · exact hb3
        · simp only [decide_eq_true_eq]
          exact hcb

theorem getLast_mergeSort_last_min {α : Type} (k : α → ℚ) :
    ∀ l : List α, l ≠ [] →
    ∃ w, (l.mergeSort (descLe k)).getLast? = some w ∧
      (∀ x ∈ l, k w ≤ k x) ∧
      l.reverse.find? (fun x => decide (k x ≤ k w)) = some w := by
  intro l
  induction l with
  | nil => intro h; exact absurd rfl h
  | cons a t ih =>
    intro _
    obtain ⟨l₁, l₂, h₁, h₂, h₃⟩ :=
      List.mergeSort_cons (descLe_trans k) (descLe_total k) a t
    cases l₂ with
    | nil =>
      simp only [List.append_nil] at h₂
      have hperm := List.mergeSort_perm t (descLe k)
      rw [h₂] at hperm
      have hlt : ∀ x ∈ t, k a < k x := by
        intro x hxt
        have hx1 : x ∈ l₁ := hperm.symm.subset hxt
        have := h₃ x hx1
        simp only [descLe, Bool.not_eq_true', decide_eq_false_iff_not] at this
        exact lt_of_not_le this
      refine ⟨a, ?_, ?_, ?_⟩
      · rw [h₁]
        exact List.getLast?_concat l₁
      · intro x hx
        rcases List.mem_cons.mp hx with hxa | hxt
        · subst hxa; exact le_refl _
        · exact le_of_lt (hlt x hxt)
      · rw [List.reverse_cons, List.find?_append]
        have hnone : t.reverse.find? (fun x => decide (k x ≤ k a)) = none := by
          rw [List.find?_eq_none]
          intro x hx
          simp only [decide_eq_true_eq]
          exact not_le.mpr (hlt x (List.mem_reverse.mp hx))
        rw [hnone, Option.none_or]
        apply List.find?_cons_of_pos
        simp
    | cons c l₂' =>
      have ht : t ≠ [] := by
        intro he
        subst he
        simp at h₂
      obtain ⟨w, hw1, hw2, hw3⟩ := ih ht
      rw [h₂] at hw1
      have hcw : (c :: l₂').getLast?.or l₁.getLast? = some w := by
        rw [← List.getLast?_append]
        exact hw1
      have hcl : (c :: l₂').getLast? = some w := by
        obtain ⟨y, hy⟩ := Option.isSome_iff_exists.mp
          (List.getLast?_isSome.mpr (List.cons_ne_nil c l₂'))
        rw [hy] at hcw
        simp only [Option.or_some, Option.some_inj] at hcw
        rw [hy, hcw]
      have hsorted := List.sorted_mergeSort (descLe_trans k) (descLe_total k) (a :: t)
      rw [h₁] at hsorted
      have hpair2 := (List.pairwise_append.mp hsorted).2.1
      have hac : k c ≤ k a := by
        have := List.rel_of_pairwise_cons hpair2 (List.mem_cons_self c l₂')
        simpa [descLe, decide_eq_true_eq] using this
      have hct : c ∈ t := by
        have : c ∈ t.mergeSort (descLe k) := by
          rw [h₂]
          exact List.mem_append_right l₁ (List.mem_cons_self c l₂')
        exact List.mem_mergeSort.mp this
      refine ⟨w, ?_, ?_, ?_⟩
      · rw [h₁, List.getLast?_append, List.getLast?_cons_cons, hcl]
        rfl
      · intro x hx
        rcases List.mem_cons.mp hx with hxa | hxt
        · subst hxa
          exact le_trans (hw2 c hct) hac
        · exact hw2 x hxt
      · rw [List.reverse_cons, List.find?_append, hw3]
        rfl

theorem sortPnlsDesc_eq_mergeSort (pnls : List (Suggestion × ℚ)) :
    sortPnlsDesc pnls = pnls.mergeSort (descLe Prod.snd) := rfl

/-- C8: best is the resolved suggestion with maximal P/L and worst the one
with minimal P/L; the descending sort is stable, so among equal maximal
P/Ls the first-encountered pair in input order wins for best, and among
equal minimal P/Ls the last one (the final entry of the sorted order)
wins for worst; both are None when no resolved suggestion has a defined
P/L. -/
theorem C8_best_worst (suggestions : List Suggestion) :
    (pnl_pairs (resolved_of suggestions) = [] →
      (scorecard suggestions).best = none ∧ (scorecard suggestions).worst = none) ∧
    (pnl_pairs (resolved_of suggestions) ≠ [] →
      ∃ b w : Suggestion × ℚ,
        (scorecard suggestions).best = some (_format_call b) ∧
        (scorecard suggestions).worst = some (_format_call w) ∧
        (∀ x ∈ pnl_pairs (resolved_of suggestions), x.2 ≤ b.2) ∧
        (∀ x ∈ pnl_pairs (resolved_of suggestions), w.2 ≤ x.2) ∧
        (pnl_pairs (resolved_of suggestions)).find?
          (fun x => decide (b.2 ≤ x.2)) = some b ∧
        (pnl_pairs (resolved_of suggestions)).reverse.find?
          (fun x => decide (x.2 ≤ w.2)) = some w) := by
  constructor
  · intro hpnil
    by_cases hres : (resolved_of suggestions).isEmpty = true
    · constructor <;> simp [scorecard, hres]
    · simp only [Bool.not_eq_true] at hres
      constructor <;> simp [scorecard, hres, hpnil, sortPnlsDesc]
  · intro hpne
    have hres : (resolved_of suggestions).isEmpty = false := by
      cases hr : resolved_of suggestions with
      | nil =>
        rw [hr] at hpne
        exact absurd rfl hpne
      | cons x xs => rfl
    have hbw : (scorecard suggestions).best =
        (sortPnlsDesc (pnl_pairs (resolved_of suggestions))).head?.map _format_call ∧
        (scorecard suggestions).worst =
        (sortPnlsDesc (pnl_pairs (resolved_of suggestions))).getLast?.map _format_call := by
      constructor <;> simp [scorecard, hres]
    obtain ⟨b, hb1, hb2, hb3⟩ :=
      head_mergeSort_first_max Prod.snd (pnl_pairs (resolved_of suggestions)) hpne
    obtain ⟨w, hw1, hw2, hw3⟩ :=
      getLast_mergeSort_last_min Prod.snd (pnl_pairs (resolved_of suggestions)) hpne
    refine ⟨b, w, ?_, ?_, hb2, hw2, hb3, hw3⟩
    · rw [hbw.1, sortPnlsDesc_eq_mergeSort, hb1]
      rfl
    · rw [hbw.2, sortPnlsDesc_eq_mergeSort, hw1]
      rfl

/-- Sample resolved BUY that gained 5, used by the C8 witness. -/
def sampleGain5 : Suggestion :=
  { ticker := "AAA", action := "BUY", confidence := "HIGH", target_price := 10,
    created_at := 0, status := "HIT", entry_price := 5,
    resolved_price := some 10, resolved_at := some 1, timeframe_days := 7 }

/-- Sample resolved BUY that lost 2, used by the C8 witness. -/
def sampleLoss2 : Suggestion :=
  { ticker := "BBB", action := "BUY", confidence := "LOW", target_price := 20,
    created_at := 0, status := "EXPIRED", entry_price := 12,
    resolved_price := some 10, resolved_at := some 1, timeframe_days := 7 }

/-- Sample resolved SELL that gained 10, used by the C8 witness. -/
def sampleGain10 : Suggestion :=
  { ticker := "CCC", action := "SELL", confidence := "MEDIUM", target_price := 50,
    created_at := 0, status := "HIT", entry_price := 60,
    resolved_price := some 50, resolved_at := some 1, timeframe_days := 7 }

/-- Sample history with P/L values [+5, -2, +10], used by the C8 witness. -/
def sampleHistory : List Suggestion := [sampleGain5, sampleLoss2, sampleGain10]

/-- Witness for C8: on the history with P/L values [+5, -2, +10] the
scorecard has a best pair of maximal P/L, first among maxima in input
order, and a worst pair of minimal P/L, last among minima. -/
theorem C8_witness :
    pnl_pairs (resolved_of sampleHistory) ≠ [] ∧
    (∃ b w : Suggestion × ℚ,
      (scorecard sampleHistory).best = some (_format_call b) ∧
      (scorecard sampleHistory).worst = some (_format_call w) ∧
      (∀ x ∈ pnl_pairs (resolved_of sampleHistory), x.2 ≤ b.2) ∧
      (∀ x ∈ pnl_pairs (resolved_of sampleHistory), w.2 ≤ x.2) ∧
      (pnl_pairs (resolved_of sampleHistory)).find?
        (fun x => decide (b.2 ≤ x.2)) = some b ∧
      (pnl_pairs (resolved_of sampleHistory)).reverse.find?
        (fun x => decide (x.2 ≤ w.2)) = some w) :=
  ⟨by decide, (C8_best_worst sampleHistory).2 (by decide)⟩
